import Mathlib

/-!
Verification development for the DBTA GP2 JSO survey dashboard.

The repository holds two revisions of the same Streamlit dashboard script:
ai.py (the later, more complete revision) and app.py (an earlier revision).
The logic under verification is the column-type detection (Schema
Classifier), the collaboration selectors, the male/female metric resolution
and the count/percentage aggregation.  Everything below is a shallow
embedding of that Python code:

* a table cell is `Option String` (`none` is a missing value, pandas NaN);
* pandas string methods str.strip / str.lower are embedded as structurally
  recursive functions on the character list of a string, so that all
  definitions evaluate by kernel reduction;
* pandas numeric coercion pd.to_numeric with coerce semantics is an
  abstract parameter `toNum : String → Option ℚ` of every definition that
  uses it (theorems hold for every coercion function); the concrete
  `parseNum` below instantiates it on unsigned integer literals for
  witnesses;
* Python float percentages are embedded as exact rationals; round(x, 1) is
  embedded as `round1` using Mathlib round (round to nearest; the Python
  tie-breaking on binary floats can differ by one unit in the last decimal,
  which every theorem below absorbs inside its stated rounding tolerance).
-/

namespace JsoSurvey

/-! ## Basic string operations (embedding of Python str methods) -/

/-- Embedding of Python str.lower (ASCII case folding, as applied to the
header and cell text of this dashboard). -/
def lowerS (s : String) : String := ⟨s.data.map Char.toLower⟩

/-- Trim of a character list: drop whitespace from both ends.  Embedding of
Python str.strip. -/
def trimChars (l : List Char) : List Char :=
  ((l.dropWhile Char.isWhitespace).reverse.dropWhile Char.isWhitespace).reverse

/-- Embedding of Python str.strip on strings. -/
def trimS (s : String) : String := ⟨trimChars s.data⟩

/-- Substring test on character lists: does `n` occur contiguously in the
second list?  Embedding of the Python `in` operator on strings. -/
def containsSubL : List Char → List Char → Bool
  | n, [] => n.isEmpty
  | n, c :: t => n.isPrefixOf (c :: t) || containsSubL n t

/-- Substring test on strings (Python `needle in hay`). -/
def containsSub (needle hay : String) : Bool := containsSubL needle.data hay.data

/-- Number of occurrences (all start positions) of `needle` inside `hay`. -/
def countOccur (needle hay : List Char) : Nat :=
  (List.range (hay.length + 1)).countP (fun i => needle.isPrefixOf (hay.drop i))

/-! ## Cells -/

/-- A table cell: `none` is a missing value (pandas NaN). -/
abbrev Cell := Option String

/-- pandas Series.astype(str): a missing value stringifies to "nan". -/
def cellToStr : Cell → String
  | none => "nan"
  | some s => s

/-- astype(str).str.strip().str.lower() applied to one cell. -/
def normCell (c : Cell) : String := lowerS (trimS (cellToStr c))

/-- str.strip().str.lower() applied to one non-missing value. -/
def normTok (s : String) : String := lowerS (trimS s)

/-- The non-missing values of a column, in order (pandas dropna). -/
def nonMissing (cells : List Cell) : List String := cells.filterMap id

/-! ## Token vocabularies (ai.py lines 78-81) -/

def yesTokens : List String := ["yes", "y", "true", "1", "x", "✓", "selected", "checked"]

def noTokens : List String := ["no", "n", "false", "0"]

/-- Blank markers unioned into the yes/no vocabulary (ai.py line 81). -/
def blankTokens : List String := ["", "nan", "none"]

/-- The full affirmative/negative/blank vocabulary of the robust Yes/No
test in ai.py line 81. -/
def vocabAi : List String := yesTokens ++ noTokens ++ blankTokens

def isYesTok (v : String) : Bool := decide (v ∈ yesTokens)

def isNoTok (v : String) : Bool := decide (v ∈ noTokens)

/-- The mask of the remaining responses in ai.py line 264: not a yes token
and not a no token (s.notna() is identically true there because astype(str)
turns NaN into the string "nan"). -/
def isOtherTok (v : String) : Bool := !isYesTok v && !isNoTok v

/-! ## Percentages (ai.py lines 271-273, app.py lines 177-178) -/

/-- Embedding of Python round(x, 1). -/
def round1 (x : ℚ) : ℚ := ((round (10 * x) : ℤ) : ℚ) / 10

/-- round(count/total*100, 1) if total>0 else 0.0 . -/
def pct (count total : Nat) : ℚ :=
  if 0 < total then round1 ((count : ℚ) / (total : ℚ) * 100) else 0

/-- The counts and percentages computed by the Yes/No branch of ai.py. -/
structure YesNoAgg where
  yesCount : Nat
  noCount : Nat
  otherCount : Nat
  total : Nat
  yesPct : ℚ
  noPct : ℚ
  otherPct : ℚ

/-- The normalized response series of ai.py line 261:
df[question].astype(str).str.strip().str.lower().  A missing cell becomes
the string "nan". -/
def seriesYN (cells : List Cell) : List String := cells.map normCell

/-- The Yes/No aggregation of ai.py lines 262-273.  Note total is
s.notna().sum() which equals the row count, because astype(str) leaves no
actual NaN in the series. -/
def yesNoAggAi (cells : List Cell) : YesNoAgg :=
  ⟨(seriesYN cells).countP isYesTok,
   (seriesYN cells).countP isNoTok,
   (seriesYN cells).countP isOtherTok,
   (seriesYN cells).length,
   pct ((seriesYN cells).countP isYesTok) (seriesYN cells).length,
   pct ((seriesYN cells).countP isNoTok) (seriesYN cells).length,
   pct ((seriesYN cells).countP isOtherTok) (seriesYN cells).length⟩

/-- The Yes/No percentages of app.py lines 173-178: total counts the
non-missing cells, yes/no match the lowercased text, and
no_pct = round(100 - yes_pct, 1) is NOT guarded by total > 0. -/
def appYesNoPcts (cells : List Cell) : ℚ × ℚ :=
  (pct (cells.countP (fun c => decide (lowerS (cellToStr c) = "yes"))) (nonMissing cells).length,
   round1 (100 - pct (cells.countP (fun c => decide (lowerS (cellToStr c) = "yes"))) (nonMissing cells).length))

/-! ## Schema Classifier -/

inductive Classification where
  | yesNo
  | rating
  | unclassified
deriving DecidableEq

/-- The numeric coercions of a column: pd.to_numeric(col, coerce).dropna()
for an arbitrary coercion function. -/
def coerced (toNum : String → Option ℚ) (cells : List Cell) : List ℚ :=
  cells.filterMap (fun c => c.bind toNum)

/-- Series.between(1,5): the closed range check of both classifiers. -/
def inRange15 (q : ℚ) : Bool := decide (1 ≤ q) && decide (q ≤ 5)

/-- The normalized distinct-value basis of ai.py line 73:
dropna().astype(str).str.strip().str.lower(). -/
def seriesAi (cells : List Cell) : List String := (nonMissing cells).map normTok

/-- The rating test of ai.py lines 85-87: at least half of the non-missing
values coerce, and every coerced value is between 1 and 5. -/
def ratingCondAi (toNum : String → Option ℚ) (cells : List Cell) : Bool :=
  decide (2 * (coerced toNum cells).length ≥ (nonMissing cells).length)
    && (coerced toNum cells).all inRange15

/-- The Schema Classifier of ai.py lines 72-87: skip empty columns, then
the robust Yes/No vocabulary test, then the rating test. -/
def classifyAi (toNum : String → Option ℚ) (cells : List Cell) : Classification :=
  if (seriesAi cells).isEmpty then .unclassified
  else if (seriesAi cells).all (fun v => decide (v ∈ vocabAi)) then .yesNo
  else if ratingCondAi toNum cells then .rating
  else .unclassified

/-- The value basis of app.py line 82: dropna().astype(str).str.lower(),
with no strip. -/
def valsApp (cells : List Cell) : List String := (nonMissing cells).map lowerS

/-- The rating test of app.py lines 86-88: at least one coerced value, all
between 1 and 5 (no 50 percent coverage requirement). -/
def ratingCondApp (toNum : String → Option ℚ) (cells : List Cell) : Bool :=
  decide (0 < (coerced toNum cells).length) && (coerced toNum cells).all inRange15

/-- The Schema Classifier of app.py lines 81-88: subset of the literal set
containing yes and no (an empty value set passes), else the rating test. -/
def classifyApp (toNum : String → Option ℚ) (cells : List Cell) : Classification :=
  if (valsApp cells).all (fun v => decide (v = "yes" ∨ v = "no")) then .yesNo
  else if ratingCondApp toNum cells then .rating
  else .unclassified

/-- Identity-like column-name keywords excluded from detection
(ai.py line 66, app.py line 77). -/
def excludeKeywords : List String := ["name", "respondent", "email", "phone", "id", "contact"]

def isExcluded (name : String) : Bool :=
  excludeKeywords.any (fun k => containsSub k (lowerS name))

/-- A survey table in column form: header names paired with cell lists. -/
abbrev Table := List (String × List Cell)

def colsForDetection (table : Table) : Table :=
  table.filter (fun col => !isExcluded col.1)

/-- The yes_no_cols list built by the detection loop of ai.py. -/
def yesNoColsAi (toNum : String → Option ℚ) (table : Table) : List String :=
  ((colsForDetection table).filter
    (fun col => decide (classifyAi toNum col.2 = Classification.yesNo))).map (fun col => col.1)

/-- The rating_cols list built by the detection loop of ai.py. -/
def ratingColsAi (toNum : String → Option ℚ) (table : Table) : List String :=
  ((colsForDetection table).filter
    (fun col => decide (classifyAi toNum col.2 = Classification.rating))).map (fun col => col.1)

/-- The yes_no_cols list built by the detection loop of app.py. -/
def yesNoColsApp (toNum : String → Option ℚ) (table : Table) : List String :=
  ((colsForDetection table).filter
    (fun col => decide (classifyApp toNum col.2 = Classification.yesNo))).map (fun col => col.1)

/-- Concrete numeric coercion used by witnesses: parses an optionally
whitespace-padded unsigned integer literal, every other string fails to
coerce.  This is the restriction of pandas to_numeric with coerce semantics
to the literals appearing in the witnesses; the classifier theorems hold
for every coercion function. -/
def parseNum (s : String) : Option ℚ :=
  if (trimChars s.data) ≠ [] ∧ (trimChars s.data).all Char.isDigit then
    some (((trimChars s.data).foldl (fun n c => 10 * n + (c.toNat - 48)) 0 : ℕ) : ℚ)
  else none

/-! ## Collaboration: one-hot columns (ai.py lines 374-381) -/

/-- The positive-value set of ai.py line 376; it includes the lowercased
option label itself. -/
def aiPositives (label : String) : List String :=
  ["yes", "y", "true", "1", "x", "selected", "checked", "✓", "√", lowerS label]

/-- Rows whose normalized cell value is in the positive set
(ai.py line 377); a row is a (country, cell) pair. -/
def aiCollabSelected (label : String) (rows : List (String × Cell)) : List (String × Cell) :=
  rows.filter (fun r => decide (normCell r.2 ∈ aiPositives label))

/-- The substring fallback of ai.py lines 379-381, applied to the already
normalized column. -/
def aiCollabFallback (label : String) (rows : List (String × Cell)) : List (String × Cell) :=
  rows.filter (fun r => containsSubL (lowerS label).data (normCell r.2).data)

/-- The filtered respondent set of ai.py lines 374-381: positive-set
membership first; only if that selects NO row at all, the substring
fallback runs. -/
def aiCollabFiltered (label : String) (rows : List (String × Cell)) : List (String × Cell) :=
  if (aiCollabSelected label rows).isEmpty then aiCollabFallback label rows
  else aiCollabSelected label rows

/-! ## Collaboration branch and country selection (C9) -/

/-- groupby(country).size() over a list of country keys: each distinct
country (first-occurrence order) with its count. -/
def groupCounts (keys : List String) : List (String × Nat) :=
  keys.eraseDups.map (fun k => (k, keys.countP (fun x => decide (x = k))))

/-- The collaboration branch of app.py lines 265-305, embedded with the
active country selection as an argument.  Following the source, the branch
starts from df = data.copy() and never applies the country filter; the
respondent mask is abstracted as a per-cell predicate. -/
def collabBranchApp (countrySel : String) (rows : List (String × Cell))
    (selFun : Cell → Bool) : List (String × Nat) :=
  groupCounts (((rows.map (fun r => (trimS r.1, r.2))).filter (fun r => selFun r.2)).map
    (fun r => r.1))

/-- The network-wide total of the collaboration branch. -/
def collabTotalApp (countrySel : String) (rows : List (String × Cell))
    (selFun : Cell → Bool) : Nat :=
  ((collabBranchApp countrySel rows selFun).map (fun p => p.2)).sum

inductive QType where
  | yesNoQ
  | ratingQ
  | collab
  | graduate
deriving DecidableEq

/-- The sidebar country selection of ai.py lines 114-119: forced to All
when the collaboration branch is active. -/
def aiCountrySel (q : QType) (userSel : String) : String :=
  if q = QType.collab then "All" else userSel

/-! ## Collaboration: packed columns (app.py lines 294-300) -/

/-- The delimiter class of re.split with pattern [;,/|]
(app.py lines 99 and 297). -/
def isSep (c : Char) : Bool := c = ';' || c = ',' || c = '/' || c = '|'

/-- re.split on a character class: split the character list at every
delimiter occurrence, keeping empty parts. -/
def splitChars (p : Char → Bool) : List Char → List (List Char)
  | [] => [[]]
  | c :: cs =>
    if p c then [] :: splitChars p cs
    else
      match splitChars p cs with
      | [] => [[c]]
      | h :: t => (c :: h) :: t

/-- [p.strip().lower() for p in parts if p.strip()] of app.py line 298. -/
def normPartsC (parts : List (List Char)) : List (List Char) :=
  parts.filterMap (fun part =>
    if (trimChars part).isEmpty then none
    else some ((trimChars part).map Char.toLower))

/-- Core of row_has_option on the character list of a cell value. -/
def rowHasOptionL (optionLower cell : List Char) : Bool :=
  decide (optionLower ∈ normPartsC (splitChars isSep cell))

/-- row_has_option of app.py lines 294-300: False on a missing cell, else
split on the delimiter class, strip and lowercase each part, drop empties,
and test membership of the canonical option token. -/
def row_has_option (optionLower : String) (val : Cell) : Bool :=
  match val with
  | none => false
  | some s => rowHasOptionL optionLower.data s.data

/-- Join token lists with a single delimiter character (the shape of a
packed multi-select cell). -/
def joinD (d : Char) : List (List Char) → List Char
  | [] => []
  | t :: ts => t ++ (ts.map (fun u => d :: u)).flatten

/-- One token whitespace-padded on both sides. -/
def Padded (t t' : List Char) : Prop :=
  ∃ w₁ w₂, (∀ c ∈ w₁, c.isWhitespace = true) ∧ (∀ c ∈ w₂, c.isWhitespace = true) ∧
    t' = w₁ ++ t ++ w₂

/-! ## Metric Resolver (ai.py lines 99-103 and 414-435) -/

inductive Metric where
  | placedByJSO
  | employed
  | selfEmployed
deriving DecidableEq

/-- GRAD_CATEGORY_KEYWORDS of ai.py lines 99-103. -/
def keywordsOf : Metric → List String
  | .placedByJSO => ["placed by the jso", "placed by jso", "placed by the jso in"]
  | .employed => ["graduates employed", "number of graduates employed", "employed in the following years"]
  | .selfEmployed => ["self-employed", "self employed", "were self-employed"]

/-- First-pass header predicate of ai.py lines 420 and 422: the lowercased
header contains the year token, the gender token and some metric keyword. -/
def genderFull (gender : String) (kws : List String) (year : String) (c : String) : Bool :=
  containsSub year (lowerS c) && containsSub gender (lowerS c)
    && kws.any (fun k => containsSub k (lowerS c))

/-- Fallback header predicate of ai.py lines 428 and 430: year token and
gender token only. -/
def genderFb (gender : String) (year : String) (c : String) : Bool :=
  containsSub year (lowerS c) && containsSub gender (lowerS c)

/-- One step of the first-pass loop: male_col = c if male_col is None else
male_col, executed when the predicate holds (ai.py lines 419-423). -/
def stepFirst (p : String → Bool) (a : Option String) (c : String) : Option String :=
  if p c then (if a.isNone then some c else a) else a

/-- One step of the fallback loop: assignment guarded by the predicate and
by male_col is None (ai.py lines 427-431). -/
def stepFb (p : String → Bool) (a : Option String) (c : String) : Option String :=
  if p c && a.isNone then some c else a

/-- The first search pass over the headers (ai.py lines 418-423), filling
the male and the female candidates in one loop. -/
def gradFirstPass (headers : List String) (kws : List String) (year : String) :
    Option String × Option String :=
  headers.foldl
    (fun acc c =>
      (stepFirst (genderFull "male" kws year) acc.1 c,
       stepFirst (genderFull "female" kws year) acc.2 c))
    (none, none)

/-- Python falsiness of an optional column name: None or the empty string. -/
def isFalsy : Option String → Bool
  | none => true
  | some s => s.isEmpty

/-- The fallback search loop (ai.py lines 427-431). -/
def gradFallbackLoop (headers : List String) (year : String)
    (init : Option String × Option String) : Option String × Option String :=
  headers.foldl
    (fun acc c =>
      (stepFb (genderFb "male" year) acc.1 c,
       stepFb (genderFb "female" year) acc.2 c))
    init

/-- The full two-pass resolution of ai.py lines 418-431: the fallback loop
runs only when a candidate is still falsy after the first pass. -/
def resolveCols (headers : List String) (kws : List String) (year : String) :
    Option String × Option String :=
  if isFalsy (gradFirstPass headers kws year).1 || isFalsy (gradFirstPass headers kws year).2 then
    gradFallbackLoop headers year (gradFirstPass headers kws year)
  else gradFirstPass headers kws year

/-- The resolved (male, female) column pair, or none when the guard of
ai.py line 433 reports MetricNotFound. -/
def resolveMetric (headers : List String) (kws : List String) (year : String) :
    Option (String × String) :=
  match resolveCols headers kws year with
  | (some m, some f) => if m.isEmpty || f.isEmpty then none else some (m, f)
  | _ => none

/-- First-match choice: the first operand when it is some, else the second. -/
def orO (a b : Option String) : Option String :=
  match a with
  | some x => some x
  | none => b

/-- Modelled from the words of the specification (section 4.3): first
match in header order for the keyword+year+gender predicate, failing that
first match in header order for the year+gender fallback predicate.  Used
to state the determinism/search-order claim against `resolveCols`. -/
def specResolveGender (gender : String) (headers : List String) (kws : List String)
    (year : String) : Option String :=
  orO (headers.find? (genderFull gender kws year)) (headers.find? (genderFb gender year))

/-! ## Graduate aggregation (ai.py lines 437-447) -/

/-- Python int() truncation of a rational (astype(int)). -/
def truncQ (q : ℚ) : ℤ := if 0 ≤ q then ⌊q⌋ else ⌈q⌉

/-- The cells of the named column of a table. -/
def colOf (table : Table) (h : String) : List Cell :=
  ((table.find? (fun col => decide (col.1 = h))).map (fun col => col.2)).getD []

/-- pd.to_numeric(col, coerce).fillna(0).astype(int) summed
(ai.py lines 439-447, network-wide totals). -/
def colSumInt (toNum : String → Option ℚ) (cells : List Cell) : ℤ :=
  (cells.map (fun c => truncQ (((c.bind toNum)).getD 0))).sum

inductive GradOutcome where
  | metricNotFound
  | totals (maleTotal femaleTotal : ℤ)
deriving DecidableEq

/-- The Graduate Analysis branch of ai.py lines 412-447: resolve the
male/female columns for the chosen metric and year; on failure report
MetricNotFound and perform no aggregation, otherwise sum the two columns. -/
def graduateBranch (toNum : String → Option ℚ) (table : Table) (metric : Metric)
    (year : String) : GradOutcome :=
  match resolveMetric (table.map (fun col => col.1)) (keywordsOf metric) year with
  | none => .metricNotFound
  | some (m, f) => .totals (colSumInt toNum (colOf table m)) (colSumInt toNum (colOf table f))

/-! ## Concrete inputs used by witnesses and counterexamples -/

/-- A header whose only occurrence of the male token is inside female. -/
def femHdr : String := "Number of female graduates placed by the JSO in 2023"

/-- A matching male header. -/
def maleHdr : String := "Number of male graduates placed by the JSO in 2023"

/-- A table with no header containing the year 2023. -/
def tableNo2023 : Table :=
  [("Country", [some "Kenya"]),
   ("Number of male graduates placed by the JSO in 2022", [some "5"])]
/-! ## Helper lemmas -/

theorem yes_no_tok_disjoint (v : String) (h : isYesTok v = true) : isNoTok v = false := by
  have hv : v ∈ yesTokens := of_decide_eq_true h
  simp only [yesTokens, List.mem_cons, List.not_mem_nil, or_false] at hv
  rcases hv with rfl | rfl | rfl | rfl | rfl | rfl | rfl | rfl <;> decide

theorem countP_partition (s : List String) :
    s.countP isYesTok + s.countP isNoTok + s.countP isOtherTok = s.length := by
  induction s with
  | nil => rfl
  | cons a t ih =>
    rw [List.countP_cons, List.countP_cons, List.countP_cons, List.length_cons]
    cases hy : isYesTok a <;> cases hn : isNoTok a
    · simp [isOtherTok, hy, hn]
      omega
    · simp [isOtherTok, hy, hn]
      omega
    · simp [isOtherTok, hy, hn]
      omega
    · have hd := yes_no_tok_disjoint a hy
      rw [hn] at hd
      exact absurd hd (by decide)

theorem abs_round1_sub (x : ℚ) : |round1 x - x| ≤ 1 / 20 := by
  have h := abs_sub_round (10 * x)
  rw [abs_sub_comm] at h
  have hx : round1 x - x = (((round (10 * x) : ℤ) : ℚ) - 10 * x) / 10 := by
    rw [round1]; ring
  rw [hx, abs_div, show |(10 : ℚ)| = 10 from by norm_num]
  linarith

theorem round1_sum_three (x y z : ℚ) (hsum : x + y + z = 100) :
    |round1 x + round1 y + round1 z - 100| ≤ 3 / 20 := by
  have h1 := abs_round1_sub x
  have h2 := abs_round1_sub y
  have h3 := abs_round1_sub z
  have e : round1 x + round1 y + round1 z - 100
      = (round1 x - x) + (round1 y - y) + (round1 z - z) := by rw [← hsum]; ring
  rw [e]
  have ha := abs_add ((round1 x - x) + (round1 y - y)) (round1 z - z)
  have hb := abs_add (round1 x - x) (round1 y - y)
  linarith

theorem ratingCondAi_iff (toNum : String → Option ℚ) (cells : List Cell) :
    ratingCondAi toNum cells = true ↔
      2 * (coerced toNum cells).length ≥ (nonMissing cells).length ∧
        ∀ q ∈ coerced toNum cells, 1 ≤ q ∧ q ≤ 5 := by
  simp [ratingCondAi, inRange15, List.all_eq_true, Bool.and_eq_true, decide_eq_true_eq]

theorem seriesAi_not_empty (cells : List Cell) (hne : nonMissing cells ≠ []) :
    ¬((seriesAi cells).isEmpty = true) := by
  rw [List.isEmpty_iff]
  simp only [seriesAi, List.map_eq_nil_iff]
  exact hne

/-! ## Claim C2 -/

/-- Claim C2, counterexample: the claim as stated fails on the code.  In
ai.py, a single-row column whose cell is missing has zero non-missing
responses, yet the reported other percentage is 100.0 (astype(str) turns
the missing cell into the counted string nan), not 0.0.  In app.py, an
aggregation with non-missing total 0 reports no_pct = round(100 - 0.0, 1)
= 100.0, not 0.0. -/
theorem c2_counterexample :
    (nonMissing ([none] : List Cell)).length = 0
    ∧ (yesNoAggAi [none]).otherPct = 100
    ∧ appYesNoPcts [] = (0, 100) := by
  refine ⟨by decide, ?_, ?_⟩
  · simp [yesNoAggAi, seriesYN, pct, round1, normCell, cellToStr, isOtherTok, isYesTok, isNoTok,
      yesTokens, noTokens, trimS, trimChars, lowerS]
    norm_num [round_eq]
  · simp [appYesNoPcts, pct, nonMissing, round1]
    norm_num [round_eq]

/-- Claim C2, amended: in the ai.py Yes/No aggregation the total is the row
count of the column (a missing cell is stringified to nan and counted in
the other bucket, so total equals the number of rows, not the number of
non-missing responses).  Whenever the column has at least one row, the
reported yes, no and other percentages sum to 100.0 up to rounding (each
within 0.05, so the sum is within 0.15); when the column has no rows at
all, every percentage is 0.0 and no division is attempted. -/
theorem c2_thm (cells : List Cell) :
    (cells ≠ [] →
      |(yesNoAggAi cells).yesPct + (yesNoAggAi cells).noPct + (yesNoAggAi cells).otherPct - 100|
        ≤ 3 / 20)
    ∧ (cells = [] →
      (yesNoAggAi cells).yesPct = 0 ∧ (yesNoAggAi cells).noPct = 0
        ∧ (yesNoAggAi cells).otherPct = 0) := by
  constructor
  · intro hne
    have ht : 0 < (seriesYN cells).length := by
      rw [seriesYN, List.length_map]
      exact List.length_pos.mpr hne
    have htQ : ((seriesYN cells).length : ℚ) ≠ 0 := Nat.cast_ne_zero.mpr ht.ne'
    have hpart := countP_partition (seriesYN cells)
    have hc : ((seriesYN cells).countP isYesTok : ℚ) + ((seriesYN cells).countP isNoTok : ℚ)
        + ((seriesYN cells).countP isOtherTok : ℚ) = ((seriesYN cells).length : ℚ) := by
      exact_mod_cast hpart
    have hsum : ((seriesYN cells).countP isYesTok : ℚ) / ((seriesYN cells).length : ℚ) * 100
        + ((seriesYN cells).countP isNoTok : ℚ) / ((seriesYN cells).length : ℚ) * 100
        + ((seriesYN cells).countP isOtherTok : ℚ) / ((seriesYN cells).length : ℚ) * 100
        = 100 := by
      field_simp
      linarith
    simp only [yesNoAggAi]
    rw [pct, if_pos ht, pct, if_pos ht, pct, if_pos ht]
    exact round1_sum_three _ _ _ hsum
  · intro he
    subst he
    exact ⟨rfl, rfl, rfl⟩

/-- Claim C2, witness at a concrete two-row column. -/
theorem c2_witness :
    |(yesNoAggAi [some "yes", none]).yesPct + (yesNoAggAi [some "yes", none]).noPct
      + (yesNoAggAi [some "yes", none]).otherPct - 100| ≤ 3 / 20 :=
  (c2_thm [some "yes", none]).1 (by decide)

/-! ## Claim C3 -/

/-- Claim C3, counterexample: the claim as stated fails on the app.py
variant of the Schema Classifier.  On a column with four non-missing
values of which only one coerces to a number (25 percent coverage, below
the required half), app.py still classifies Rating, because its rating
test only demands at least one coerced value. -/
theorem c3_counterexample :
    classifyApp parseNum [some "a", some "b", some "c", some "3"] = Classification.rating
    ∧ 2 * (coerced parseNum [some "a", some "b", some "c", some "3"]).length
        < (nonMissing [some "a", some "b", some "c", some "3"]).length := by
  decide

/-- Claim C3, amended: the stated rule is exactly the rating test of the
robust classifier in ai.py.  For every coercion function and every column
with at least one non-missing value that is not classified YesNo, the
ai.py classifier labels it Rating exactly when at least half of the
non-missing values coerce and every coerced value lies in the closed range
[1,5]; and one coerced value outside [1,5] demotes the column to
Unclassified.  The earlier app.py variant instead classifies Rating as
soon as at least one value coerces and all coerced values are in range. -/
theorem c3_thm (toNum : String → Option ℚ) (cells : List Cell)
    (hne : nonMissing cells ≠ []) (hy : classifyAi toNum cells ≠ Classification.yesNo) :
    (classifyAi toNum cells = Classification.rating ↔
      2 * (coerced toNum cells).length ≥ (nonMissing cells).length ∧
        ∀ q ∈ coerced toNum cells, 1 ≤ q ∧ q ≤ 5)
    ∧ ((∃ q ∈ coerced toNum cells, q < 1 ∨ 5 < q) →
        classifyAi toNum cells = Classification.unclassified) := by
  have hse := seriesAi_not_empty cells hne
  rw [classifyAi, if_neg hse] at hy ⊢
  by_cases hv : (seriesAi cells).all (fun v => decide (v ∈ vocabAi)) = true
  · rw [if_pos hv] at hy
    exact absurd rfl hy
  · rw [if_neg hv] at hy ⊢
    by_cases hrc : ratingCondAi toNum cells = true
    · rw [if_pos hrc]
      constructor
      · exact iff_of_true rfl ((ratingCondAi_iff toNum cells).mp hrc)
      · rintro ⟨q, hq, hout⟩
        exfalso
        have hr := ((ratingCondAi_iff toNum cells).mp hrc).2 q hq
        rcases hout with h | h
        · linarith [hr.1]
        · linarith [hr.2]
    · rw [if_neg hrc]
      constructor
      · refine iff_of_false (fun h => Classification.noConfusion h) ?_
        intro hP
        exact hrc ((ratingCondAi_iff toNum cells).mpr hP)
      · intro _
        rfl

/-- Claim C3, witness: a concrete column that the ai.py classifier labels
Rating through the amended rule. -/
theorem c3_witness : classifyAi parseNum [some "3", some "banana"] = Classification.rating :=
  ((c3_thm parseNum [some "3", some "banana"] (by decide) (by decide)).1).mpr (by decide)

/-! ## Claim C4 -/

theorem classifyAi_mem_nonempty (toNum : String → Option ℚ) (table : Table) (name : String)
    (target : Classification) (htar : target ≠ Classification.unclassified)
    (h : name ∈ ((colsForDetection table).filter
      (fun col => decide (classifyAi toNum col.2 = target))).map (fun col => col.1)) :
    ∃ cells, (name, cells) ∈ table ∧ ∃ c ∈ cells, c ≠ none := by
  obtain ⟨col, hcol, hname⟩ := List.mem_map.mp h
  obtain ⟨hdet, hcls⟩ := List.mem_filter.mp hcol
  have htab : col ∈ table := (List.mem_filter.mp hdet).1
  have hclass : classifyAi toNum col.2 = target := of_decide_eq_true hcls
  have hnm : nonMissing col.2 ≠ [] := by
    intro h0
    have hempty : (seriesAi col.2).isEmpty = true := by
      simp [seriesAi, h0]
    rw [classifyAi, if_pos hempty] at hclass
    exact htar hclass.symm
  obtain ⟨s, hs⟩ := List.exists_mem_of_ne_nil _ hnm
  obtain ⟨c, hc, hcs⟩ := List.mem_filterMap.mp hs
  refine ⟨col.2, ?_, c, hc, ?_⟩
  · have hcol2 : (name, col.2) = col := by
      rw [← hname]
    rw [hcol2]
    exact htab
  · intro hcn
    rw [hcn] at hcs
    exact Option.noConfusion hcs

/-- Claim C4, counterexample: the claim as stated fails on the app.py
variant.  A column whose two cells are both missing has an empty value
set, which is a subset of the yes/no literal set, so app.py places it in
the yes_no_cols question list. -/
theorem c4_counterexample :
    yesNoColsApp parseNum [("Q1", [none, none])] = ["Q1"]
    ∧ (∀ c ∈ ([none, none] : List Cell), c = none) := by
  decide

/-- Claim C4, amended: in the robust ai.py classifier the claim holds — a
name can appear in the yes_no_cols or rating_cols question list only if
its column has at least one non-missing cell, so all-missing columns
appear in no question list.  The earlier app.py variant violates this: it
classifies an all-missing column YesNo. -/
theorem c4_thm (toNum : String → Option ℚ) (table : Table) (name : String)
    (h : name ∈ yesNoColsAi toNum table ∨ name ∈ ratingColsAi toNum table) :
    ∃ cells, (name, cells) ∈ table ∧ ∃ c ∈ cells, c ≠ none := by
  rcases h with h | h
  · exact classifyAi_mem_nonempty toNum table name Classification.yesNo (by decide) h
  · exact classifyAi_mem_nonempty toNum table name Classification.rating (by decide) h

/-- Claim C4, witness at a concrete one-column table. -/
theorem c4_witness :
    ∃ cells, ("Q1", cells) ∈ ([("Q1", [some "yes"])] : Table) ∧ ∃ c ∈ cells, c ≠ none :=
  c4_thm parseNum [("Q1", [some "yes"])] "Q1" (Or.inl (by decide))

/-! ## Claim C5 -/

/-- Claim C5, counterexample: the claim as stated fails on the app.py
variant.  The column values " Yes" and "No" are, after trimming and
lowercasing, the tokens yes and no of the fixed vocabulary, and the header
Q1 is not excluded, yet app.py does not label the column YesNo (it
compares the untrimmed lowercased values against the literal set). -/
theorem c5_counterexample :
    yesNoColsApp parseNum [("Q1", [some " Yes", some "No"])] = []
    ∧ isExcluded "Q1" = false
    ∧ nonMissing [some " Yes", some "No"] ≠ []
    ∧ (∀ s ∈ nonMissing [some " Yes", some "No"], normTok s ∈ vocabAi) := by
  decide

/-- Claim C5, amended: the claim holds for the robust ai.py classifier on
columns with at least one non-missing value: every non-excluded column
whose non-missing values, after trimming and lowercasing, all belong to
the affirmative/negative/blank vocabulary is placed in the yes_no_cols
question list.  The earlier app.py variant only accepts the exact
lowercased literals yes and no, so whitespace variants fail there. -/
theorem c5_thm (toNum : String → Option ℚ) (table : Table) (name : String)
    (cells : List Cell) (hmem : (name, cells) ∈ table) (hexc : isExcluded name = false)
    (hne : nonMissing cells ≠ [])
    (hvoc : ∀ s ∈ nonMissing cells, normTok s ∈ vocabAi) :
    name ∈ yesNoColsAi toNum table := by
  have hclass : classifyAi toNum cells = Classification.yesNo := by
    have hse := seriesAi_not_empty cells hne
    have hall : (seriesAi cells).all (fun v => decide (v ∈ vocabAi)) = true := by
      rw [List.all_eq_true]
      intro v hv
      obtain ⟨s, hs, rfl⟩ := List.mem_map.mp hv
      exact decide_eq_true (hvoc s hs)
    rw [classifyAi, if_neg hse, if_pos hall]
  apply List.mem_map.mpr
  refine ⟨(name, cells), ?_, rfl⟩
  apply List.mem_filter.mpr
  refine ⟨?_, decide_eq_true hclass⟩
  apply List.mem_filter.mpr
  exact ⟨hmem, by simp [hexc]⟩

/-- Claim C5, witness: a case-and-whitespace-variant yes/no column lands
in the ai.py yes_no_cols list. -/
theorem c5_witness :
    "Q1" ∈ yesNoColsAi parseNum [("Q1", [some " YES ", some "no", none])] :=
  c5_thm parseNum [("Q1", [some " YES ", some "no", none])] "Q1"
    [some " YES ", some "no", none] (by decide) (by decide) (by decide) (by decide)

/-! ## Claim C6 -/

/-- Claim C6, counterexample: the claim as stated fails on ai.py.  With
option label mentoring and rows yes and Mentoring together, the second
row satisfies the per-row substring fallback (its normalized value
contains the label), yet it is not selected, because the fallback only
runs when no row at all matched the positive set.  Selection is therefore
not per-row independent. -/
theorem c6_counterexample :
    aiCollabFiltered "mentoring" [("Kenya", some "yes"), ("Uganda", some "Mentoring together")]
      = [("Kenya", some "yes")]
    ∧ containsSubL (lowerS "mentoring").data (normCell (some "Mentoring together")).data = true
    ∧ normCell (some "Mentoring together") ∉ aiPositives "mentoring" := by
  decide

/-- Claim C6, amended: in ai.py the one-hot selection is per-row only
within each stage.  If some row of the column has a positive value, the
selected rows are exactly the rows whose trimmed lowercased value is in
the positive vocabulary (which includes the lowercased label itself), and
the substring fallback is not consulted; only when no row has a positive
value does the per-row case-insensitive substring test decide selection. -/
theorem c6_thm (label : String) (rows : List (String × Cell)) :
    ((∃ r ∈ rows, normCell r.2 ∈ aiPositives label) →
      aiCollabFiltered label rows = aiCollabSelected label rows)
    ∧ ((∀ r ∈ rows, normCell r.2 ∉ aiPositives label) →
      aiCollabFiltered label rows = aiCollabFallback label rows) := by
  constructor
  · rintro ⟨r, hr, hpos⟩
    have hmem : r ∈ aiCollabSelected label rows :=
      List.mem_filter.mpr ⟨hr, decide_eq_true hpos⟩
    have hne : ¬((aiCollabSelected label rows).isEmpty = true) := by
      rw [List.isEmpty_iff]
      exact List.ne_nil_of_mem hmem
    rw [aiCollabFiltered, if_neg hne]
  · intro hall
    have hnil : aiCollabSelected label rows = [] := by
      apply List.filter_eq_nil_iff.mpr
      intro a ha
      simp only [decide_eq_true_eq]
      exact hall a ha
    have he : (aiCollabSelected label rows).isEmpty = true := by
      rw [hnil]
      rfl
    rw [aiCollabFiltered, if_pos he]

/-- Claim C6, witness: with one positive row present, the filtered rows
are exactly the positive-set matches. -/
theorem c6_witness :
    aiCollabFiltered "mentoring" [("Kenya", some "yes"), ("Uganda", some "Mentoring together")]
      = aiCollabSelected "mentoring" [("Kenya", some "yes"), ("Uganda", some "Mentoring together")] :=
  (c6_thm "mentoring" [("Kenya", some "yes"), ("Uganda", some "Mentoring together")]).1
    ⟨("Kenya", some "yes"), by decide, by decide⟩

/-! ## Metric Resolver lemmas -/

theorem foldl_pair {α : Type} (g₁ g₂ : Option String → α → Option String) (l : List α)
    (i : Option String × Option String) :
    l.foldl (fun acc c => (g₁ acc.1 c, g₂ acc.2 c)) i = (l.foldl g₁ i.1, l.foldl g₂ i.2) := by
  induction l generalizing i with
  | nil => rfl
  | cons c t ih =>
    rw [List.foldl_cons, List.foldl_cons, List.foldl_cons, ih]

theorem foldl_stepFirst (p : String → Bool) (l : List String) (a : Option String) :
    l.foldl (stepFirst p) a = orO a (l.find? p) := by
  induction l generalizing a with
  | nil => cases a <;> rfl
  | cons c t ih =>
    by_cases hc : p c = true
    · rw [List.foldl_cons, List.find?_cons_of_pos _ hc, ih]
      cases a <;> simp [stepFirst, hc, orO]
    · rw [List.foldl_cons, List.find?_cons_of_neg _ hc, ih]
      have hs : stepFirst p a c = a := by simp [stepFirst, hc]
      rw [hs]

theorem foldl_stepFb (p : String → Bool) (l : List String) (a : Option String) :
    l.foldl (stepFb p) a = orO a (l.find? p) := by
  induction l generalizing a with
  | nil => cases a <;> rfl
  | cons c t ih =>
    by_cases hc : p c = true
    · rw [List.foldl_cons, List.find?_cons_of_pos _ hc, ih]
      cases a <;> simp [stepFb, hc, orO]
    · rw [List.foldl_cons, List.find?_cons_of_neg _ hc, ih]
      have hs : stepFb p a c = a := by simp [stepFb, hc]
      rw [hs]

theorem gradFirstPass_eq (headers : List String) (kws : List String) (year : String) :
    gradFirstPass headers kws year =
      (headers.find? (genderFull "male" kws year), headers.find? (genderFull "female" kws year)) := by
  have h := foldl_pair (stepFirst (genderFull "male" kws year))
    (stepFirst (genderFull "female" kws year)) headers ((none, none) : Option String × Option String)
  rw [gradFirstPass, h, foldl_stepFirst, foldl_stepFirst]
  rfl

theorem gradFallbackLoop_eq (headers : List String) (year : String)
    (i : Option String × Option String) :
    gradFallbackLoop headers year i =
      (orO i.1 (headers.find? (genderFb "male" year)),
       orO i.2 (headers.find? (genderFb "female" year))) := by
  have h := foldl_pair (stepFb (genderFb "male" year)) (stepFb (genderFb "female" year)) headers i
  rw [gradFallbackLoop, h, foldl_stepFb, foldl_stepFb]

theorem resolveCols_spec (headers : List String) (kws : List String) (year : String) :
    resolveCols headers kws year =
      (specResolveGender "male" headers kws year, specResolveGender "female" headers kws year) := by
  rw [resolveCols, gradFirstPass_eq, gradFallbackLoop_eq, specResolveGender, specResolveGender]
  dsimp only
  split_ifs with hcond
  · rfl
  · rw [Bool.or_eq_true, not_or] at hcond
    obtain ⟨hm, hf⟩ := hcond
    cases hmm : headers.find? (genderFull "male" kws year) with
    | none =>
      rw [hmm] at hm
      exact absurd rfl hm
    | some x =>
      cases hff : headers.find? (genderFull "female" kws year) with
      | none =>
        rw [hff] at hf
        exact absurd rfl hf
      | some y =>
        rfl

theorem specResolve_contains_gender (g : String) (headers : List String) (kws : List String)
    (year : String) (c : String) (h : specResolveGender g headers kws year = some c) :
    containsSub g (lowerS c) = true := by
  rw [specResolveGender] at h
  cases hf : headers.find? (genderFull g kws year) with
  | some x =>
    rw [hf] at h
    simp only [orO] at h
    injection h with hxc
    subst hxc
    have hp := List.find?_some hf
    simp only [genderFull, Bool.and_eq_true] at hp
    exact hp.1.2
  | none =>
    rw [hf] at h
    simp only [orO] at h
    have hp := List.find?_some h
    simp only [genderFb, Bool.and_eq_true] at hp
    exact hp.2

/-! ## Claim C7 -/

/-- Claim C7: metric resolution is a deterministic function of the header
list, keyword list and year, characterized by the fixed search order of
the specification.  The two-pass loop of ai.py computes, for each gender
independently, the first header in header order containing the year
token, the gender token and a metric keyword, and failing that the first
header in header order containing the year and gender tokens alone.
Repeated resolution over the same headers therefore returns the same pair
every time (the resolver is a pure function of its arguments). -/
theorem c7_thm (headers : List String) (kws : List String) (year : String) :
    resolveCols headers kws year =
      (specResolveGender "male" headers kws year, specResolveGender "female" headers kws year) :=
  resolveCols_spec headers kws year

/-! ## Claim C1 -/

/-- Claim C1, counterexample: the male search of the Metric Resolver does
match the substring male inside female.  On a header list containing only
a female header for the placed-by-JSO metric in 2023, that female header
is returned as BOTH the male and the female column; the occurrence counts
certify that the lowered header contains male only inside female (one
occurrence of each, and every occurrence of female contains one of male). -/
theorem c1_counterexample :
    resolveMetric [femHdr] (keywordsOf Metric.placedByJSO) "2023" = some (femHdr, femHdr)
    ∧ countOccur "male".data (lowerS femHdr).data = 1
    ∧ countOccur "female".data (lowerS femHdr).data = 1 := by
  decide

/-- Claim C1, amended: the gender predicates are plain substring tests, so
a header containing the gender token only as part of female CAN be
returned as the male column (see the counterexample).  What does hold is
the containment guarantee in each direction: whenever resolution succeeds,
the returned male column contains the substring male (possibly only
inside female) and the returned female column contains the substring
female (so a male-only header is never returned as the female column). -/
theorem c1_thm (headers : List String) (kws : List String) (year : String)
    (m f : String) (h : resolveMetric headers kws year = some (m, f)) :
    containsSub "male" (lowerS m) = true ∧ containsSub "female" (lowerS f) = true := by
  rw [resolveMetric, resolveCols_spec] at h
  cases hm : specResolveGender "male" headers kws year with
  | none =>
    rw [hm] at h
    exact Option.noConfusion h
  | some mc =>
    cases hf2 : specResolveGender "female" headers kws year with
    | none =>
      rw [hm, hf2] at h
      exact Option.noConfusion h
    | some fc =>
      rw [hm, hf2] at h
      dsimp only at h
      by_cases hemp : (mc.isEmpty || fc.isEmpty) = true
      · rw [if_pos hemp] at h
        exact Option.noConfusion h
      · rw [if_neg hemp] at h
        injection h with hpair
        injection hpair with h1 h2
        rw [← h1, ← h2]
        exact ⟨specResolve_contains_gender "male" headers kws year mc hm,
          specResolve_contains_gender "female" headers kws year fc hf2⟩

/-- Claim C1, witness: with a genuine male header and a female header both
present, resolution returns columns containing the respective tokens. -/
theorem c1_witness :
    containsSub "male" (lowerS maleHdr) = true ∧ containsSub "female" (lowerS femHdr) = true :=
  c1_thm [maleHdr, femHdr] (keywordsOf Metric.placedByJSO) "2023" maleHdr femHdr (by decide)

/-! ## Claim C8 -/

/-- Claim C8: if after both search passes no male column or no female
column has been found, the resolution of the Metric Resolver returns the
MetricNotFound failure, and the Graduate Analysis branch performs no
summation or grouping for that metric and year (its outcome is the
failure report, which carries no aggregate). -/
theorem c8_thm (toNum : String → Option ℚ) (table : Table) (metric : Metric) (year : String)
    (h : (resolveCols (table.map (fun col => col.1)) (keywordsOf metric) year).1 = none
      ∨ (resolveCols (table.map (fun col => col.1)) (keywordsOf metric) year).2 = none) :
    resolveMetric (table.map (fun col => col.1)) (keywordsOf metric) year = none
    ∧ graduateBranch toNum table metric year = GradOutcome.metricNotFound := by
  have hres : resolveMetric (table.map (fun col => col.1)) (keywordsOf metric) year = none := by
    rw [resolveMetric]
    cases hp : resolveCols (table.map (fun col => col.1)) (keywordsOf metric) year with
    | mk mc fc =>
      rw [hp] at h
      rcases h with h | h
      · dsimp only at h
        subst h
        rfl
      · dsimp only at h
        subst h
        cases mc <;> rfl
  refine ⟨hres, ?_⟩
  rw [graduateBranch, hres]

/-- Claim C8, witness: the end-to-end scenario with no header containing
the year 2023 yields MetricNotFound and no aggregation. -/
theorem c8_witness :
    graduateBranch parseNum tableNo2023 Metric.placedByJSO "2023" = GradOutcome.metricNotFound :=
  (c8_thm parseNum tableNo2023 Metric.placedByJSO "2023" (Or.inl (by decide))).2

/-! ## Claim C9 -/

/-- Claim C9: collaboration counts are computed network-wide over all rows
of the table, whatever the active country selection: the per-country
grouped counts and the total count are identical for any two country
selections (the branch never reads the selection), and in ai.py the
sidebar additionally forces the selection to All whenever the
collaboration branch is active. -/
theorem c9_thm (sel₁ sel₂ : String) (rows : List (String × Cell)) (selFun : Cell → Bool) :
    collabBranchApp sel₁ rows selFun = collabBranchApp sel₂ rows selFun
    ∧ collabTotalApp sel₁ rows selFun = collabTotalApp sel₂ rows selFun
    ∧ ∀ userSel : String, aiCountrySel QType.collab userSel = "All" :=
  ⟨rfl, rfl, fun _ => rfl⟩

/-! ## Packed-column lemmas -/

theorem ws_not_sep {c : Char} (h : c.isWhitespace = true) : isSep c = false := by
  by_contra hc
  rw [Bool.not_eq_false] at hc
  simp only [isSep, Bool.or_eq_true, decide_eq_true_eq] at hc
  rcases hc with ((h1 | h1) | h1) | h1 <;> subst h1 <;> exact absurd h (by decide)

theorem dropWhile_append_of_all (p : Char → Bool) (w l : List Char)
    (hw : ∀ c ∈ w, p c = true) : (w ++ l).dropWhile p = l.dropWhile p := by
  induction w with
  | nil => rfl
  | cons c t ih =>
    rw [List.cons_append, List.dropWhile_cons, if_pos (hw c (List.mem_cons_self c t))]
    exact ih (fun x hx => hw x (List.mem_cons_of_mem c hx))

theorem dropWhile_append_of_ne_nil (p : Char → Bool) (t w : List Char)
    (h : t.dropWhile p ≠ []) : (t ++ w).dropWhile p = t.dropWhile p ++ w := by
  induction t with
  | nil => simp at h
  | cons c ts ih =>
    by_cases hc : p c = true
    · have h' : ts.dropWhile p ≠ [] := by
        rw [List.dropWhile_cons, if_pos hc] at h
        exact h
      rw [List.cons_append, List.dropWhile_cons, if_pos hc, List.dropWhile_cons, if_pos hc]
      exact ih h'
    · rw [List.cons_append, List.dropWhile_cons, if_neg hc, List.dropWhile_cons, if_neg hc]
      rfl

theorem trimChars_pad (t w₁ w₂ : List Char) (h1 : ∀ c ∈ w₁, c.isWhitespace = true)
    (h2 : ∀ c ∈ w₂, c.isWhitespace = true) :
    trimChars (w₁ ++ t ++ w₂) = trimChars t := by
  have step1 : (w₁ ++ t ++ w₂).dropWhile Char.isWhitespace
      = (t ++ w₂).dropWhile Char.isWhitespace := by
    rw [List.append_assoc]
    exact dropWhile_append_of_all Char.isWhitespace w₁ (t ++ w₂) h1
  simp only [trimChars]
  rw [step1]
  by_cases hd : t.dropWhile Char.isWhitespace = []
  · have hts : (t ++ w₂).dropWhile Char.isWhitespace = [] := by
      rw [dropWhile_append_of_all Char.isWhitespace t w₂ (List.dropWhile_eq_nil_iff.mp hd)]
      exact List.dropWhile_eq_nil_iff.mpr h2
    rw [hts, hd]
  · rw [dropWhile_append_of_ne_nil Char.isWhitespace t w₂ hd]
    rw [List.reverse_append]
    rw [dropWhile_append_of_all Char.isWhitespace w₂.reverse
      (t.dropWhile Char.isWhitespace).reverse (fun c hc => h2 c (List.mem_reverse.mp hc))]

theorem splitChars_sepFree (l : List Char) (h : ∀ c ∈ l, isSep c = false) :
    splitChars isSep l = [l] := by
  induction l with
  | nil => rfl
  | cons c t ih =>
    have hc : isSep c = false := h c (List.mem_cons_self c t)
    have ih' := ih (fun x hx => h x (List.mem_cons_of_mem c hx))
    simp only [splitChars]
    rw [if_neg (by simp [hc]), ih']

theorem splitChars_append_sep (xs ys : List Char) (d : Char)
    (hxs : ∀ c ∈ xs, isSep c = false) (hd : isSep d = true) :
    splitChars isSep (xs ++ d :: ys) = xs :: splitChars isSep ys := by
  induction xs with
  | nil =>
    simp only [List.nil_append, splitChars]
    rw [if_pos hd]
  | cons c t ih =>
    have hc : isSep c = false := hxs c (List.mem_cons_self c t)
    have ih' := ih (fun x hx => hxs x (List.mem_cons_of_mem c hx))
    rw [List.cons_append]
    simp only [splitChars]
    rw [if_neg (by simp [hc]), ih']

theorem joinD_cons (d : Char) (t : List Char) (ts : List (List Char)) :
    joinD d (t :: ts) = t ++ (ts.map (fun u => d :: u)).flatten := rfl

theorem splitChars_joinD (d : Char) (hd : isSep d = true) (toks : List (List Char))
    (hne : toks ≠ []) (hfree : ∀ t ∈ toks, ∀ c ∈ t, isSep c = false) :
    splitChars isSep (joinD d toks) = toks := by
  induction toks with
  | nil => exact absurd rfl hne
  | cons t ts ih =>
    cases ts with
    | nil =>
      rw [joinD_cons, List.map_nil, List.flatten_nil, List.append_nil]
      exact splitChars_sepFree t (hfree t (List.mem_cons_self t []))
    | cons u us =>
      have hju : joinD d (u :: us) = u ++ (us.map (fun v => d :: v)).flatten := rfl
      rw [joinD_cons, List.map_cons, List.flatten_cons, List.cons_append, ← hju]
      rw [splitChars_append_sep t (joinD d (u :: us)) d
        (hfree t (List.mem_cons_self t (u :: us))) hd]
      rw [ih (List.cons_ne_nil u us) (fun x hx => hfree x (List.mem_cons_of_mem t hx))]

theorem normPartsC_cons (x : List Char) (l : List (List Char)) :
    normPartsC (x :: l) = if (trimChars x).isEmpty then normPartsC l
      else (trimChars x).map Char.toLower :: normPartsC l := by
  by_cases h : trimChars x = []
  · simp [normPartsC, List.filterMap_cons, h]
  · simp [normPartsC, List.filterMap_cons, h]

theorem normPartsC_pad (toks toks' : List (List Char)) (h : List.Forall₂ Padded toks toks') :
    normPartsC toks' = normPartsC toks := by
  induction h with
  | nil => rfl
  | @cons a b l₁ l₂ hp _ ih =>
    obtain ⟨w₁, w₂, hw₁, hw₂, heq⟩ := hp
    subst heq
    rw [normPartsC_cons, normPartsC_cons, trimChars_pad a w₁ w₂ hw₁ hw₂, ih]

theorem padded_sepFree {t t' : List Char} (h : Padded t t')
    (hf : ∀ c ∈ t, isSep c = false) : ∀ c ∈ t', isSep c = false := by
  obtain ⟨w₁, w₂, hw₁, hw₂, heq⟩ := h
  subst heq
  intro c hc
  simp only [List.append_assoc, List.mem_append] at hc
  rcases hc with hc | hc | hc
  · exact ws_not_sep (hw₁ c hc)
  · exact hf c hc
  · exact ws_not_sep (hw₂ c hc)

theorem forall₂_padded_sepFree {toks toks' : List (List Char)}
    (hp : List.Forall₂ Padded toks toks')
    (hfree : ∀ t ∈ toks, ∀ c ∈ t, isSep c = false) :
    ∀ t ∈ toks', ∀ c ∈ t, isSep c = false := by
  induction hp with
  | nil => simp
  | @cons a b l₁ l₂ hpd _ ih =>
    intro t ht
    rcases List.mem_cons.mp ht with rfl | ht
    · exact padded_sepFree hpd (hfree a (List.mem_cons_self a l₁))
    · exact ih (fun x hx => hfree x (List.mem_cons_of_mem a hx)) t ht

theorem forall₂_ne_nil {toks toks' : List (List Char)} (h : List.Forall₂ Padded toks toks')
    (hne : toks ≠ []) : toks' ≠ [] := by
  intro h0
  subst h0
  cases h
  exact hne rfl

/-! ## Claim C10 -/

/-- Claim C10: for a packed collaboration cell, row_has_option is
invariant to which delimiter of the class joins the tokens and to
whitespace padding around each token.  For any option token, any two
delimiters of the class, and any two whitespace paddings of the same
delimiter-free token list, the membership test of app.py row_has_option
gives the same answer on both packed cells. -/
theorem c10_thm (opt : List Char) (d₁ d₂ : Char) (toks toks₁ toks₂ : List (List Char))
    (hd₁ : isSep d₁ = true) (hd₂ : isSep d₂ = true) (hne : toks ≠ [])
    (hfree : ∀ t ∈ toks, ∀ c ∈ t, isSep c = false)
    (hp₁ : List.Forall₂ Padded toks toks₁) (hp₂ : List.Forall₂ Padded toks toks₂) :
    rowHasOptionL opt (joinD d₁ toks₁) = rowHasOptionL opt (joinD d₂ toks₂) := by
  have key : ∀ (d : Char) (toksp : List (List Char)), isSep d = true →
      List.Forall₂ Padded toks toksp →
      rowHasOptionL opt (joinD d toksp) = decide (opt ∈ normPartsC toks) := by
    intro d toksp hd hp
    rw [rowHasOptionL]
    rw [splitChars_joinD d hd toksp (forall₂_ne_nil hp hne) (forall₂_padded_sepFree hp hfree)]
    rw [normPartsC_pad toks toksp hp]
  rw [key d₁ toks₁ hd₁ hp₁, key d₂ toks₂ hd₂ hp₂]

/-- Claim C10, witness: the cells of the specification scenario select
option a identically, and do select it. -/
theorem c10_witness :
    row_has_option "a" (some "A; B") = row_has_option "a" (some "A,B")
    ∧ row_has_option "a" (some "A,B") = row_has_option "a" (some "A | B")
    ∧ row_has_option "a" (some "A; B") = true := by
  have e1 : (['A', ';', ' ', 'B'] : List Char) = joinD ';' [['A'], [' ', 'B']] := by decide
  have e2 : (['A', ',', 'B'] : List Char) = joinD ',' [['A'], ['B']] := by decide
  have e3 : (['A', ' ', '|', ' ', 'B'] : List Char) = joinD '|' [['A', ' '], [' ', 'B']] := by decide
  refine ⟨?_, ?_, by decide⟩
  · simp only [row_has_option]
    rw [e1, e2]
    exact c10_thm ['a'] ';' ',' [['A'], ['B']] [['A'], [' ', 'B']] [['A'], ['B']]
      (by decide) (by decide) (by decide) (by decide)
      (List.Forall₂.cons ⟨[], [], by decide, by decide, rfl⟩
        (List.Forall₂.cons ⟨[' '], [], by decide, by decide, rfl⟩ List.Forall₂.nil))
      (List.Forall₂.cons ⟨[], [], by decide, by decide, rfl⟩
        (List.Forall₂.cons ⟨[], [], by decide, by decide, rfl⟩ List.Forall₂.nil))
  · simp only [row_has_option]
    rw [e2, e3]
    exact c10_thm ['a'] ',' '|' [['A'], ['B']] [['A'], ['B']] [['A', ' '], [' ', 'B']]
      (by decide) (by decide) (by decide) (by decide)
      (List.Forall₂.cons ⟨[], [], by decide, by decide, rfl⟩
        (List.Forall₂.cons ⟨[], [], by decide, by decide, rfl⟩ List.Forall₂.nil))
      (List.Forall₂.cons ⟨[], [' '], by decide, by decide, rfl⟩
        (List.Forall₂.cons ⟨[' '], [], by decide, by decide, rfl⟩ List.Forall₂.nil))

end JsoSurvey
